import Mathlib

/-!
Verification of the safal_stock inventory backend (Express + Mongoose).

The repository stores three collections — Category, SubCategory, Product —
and exposes CRUD routes over them.  We embed the persistent state as a
`Store` of three lists and each route handler as a pure function
`Store → Response × Store`, translated statement-by-statement from the
route code in `backend/routes/categories.js`, `backend/routes/products.js`,
the subcategories route file, and the Mongoose models.

Modelling conventions:
* Mongo ObjectIds become `Nat`.
* JS numbers on the fields the claims touch (`qty`, `price`, `billing`)
  become `Int`.
* `Date.now()` timestamps become a `Nat` parameter `now` passed to each
  mutating handler.
* The anchored case-insensitive regex `new RegExp('^' + name + '$', 'i')`
  used for duplicate-name checks is modelled by a small regex engine over
  the pattern the raw name forms (see the duplicate-name regex section),
  with a parse failure standing for the SyntaxError -> 500 path; the
  unanchored `{ $regex: search, $options: 'i' }` search is modelled as
  case-insensitive substring containment.
* `Model.find(q)` is `List.filter`, `findById` is `List.find?`,
  `deleteMany(q)` keeps the non-matching records, `countDocuments(q)`
  is the length of the filter, and `.sort({...})` is a stable
  `List.mergeSort` with the corresponding comparator.
* Mongoose virtuals (`rakam`, `subCategoriesCount`, `productsCount`)
  are not fields of the stored records: they are computed by the
  serialisation functions applied when a handler builds its response,
  exactly as `schema.virtual(...)` computes them at read time.
-/

/-- Stored Category record (`models/Category.js`): `name` plus `createdAt`;
`subCategoriesCount` is a virtual, so it is deliberately absent here. -/
structure Category where
  id : Nat
  name : String
  createdAt : Nat
deriving Repr, DecidableEq

/-- Stored SubCategory record (`models/SubCategory.js`); `productsCount` is a
virtual and so absent. -/
structure SubCategory where
  id : Nat
  name : String
  categoryId : Nat
  createdAt : Nat
deriving Repr, DecidableEq

/-- Stored Product record (`models/Product.js`); `rakam` is a virtual and so
absent. -/
structure Product where
  id : Nat
  name : String
  subCategoryId : Nat
  qty : Int
  price : Int
  billing : Int
  image : String
  sampleLocation : String
  ghodaLocation : String
  createdAt : Nat
  updatedAt : Nat
deriving Repr, DecidableEq

/-- The persistent state: the three collections. -/
structure Store where
  categories : List Category
  subCategories : List SubCategory
  products : List Product
deriving Repr, DecidableEq

/-- Whitespace as the JS `trim()` sees it. -/
def wsChar (c : Char) : Bool :=
  c == ' ' || c == '\t' || c == '\n' || c == '\r'

/-- Model of the `trim()` sanitiser applied to request names: strip leading
and trailing whitespace. -/
def jsTrim (s : String) : String :=
  String.mk ((((s.data.dropWhile wsChar).reverse).dropWhile wsChar).reverse)

/-- ASCII lower-casing, the case folding the `'i'` regex flag performs on
the names this system stores. -/
def jsLower (s : String) : String :=
  String.mk (s.data.map Char.toLower)

/-- Case-insensitive string equality: the meaning of the anchored
case-insensitive regex `^name$` used by the duplicate-name checks. -/
def ciEq (a b : String) : Bool :=
  jsLower a == jsLower b

/-- `listInfix n h`
 is true when `n` occurs contiguously inside `h`. -/
def listInfix (n h : List Char) : Bool :=
  match h with
  | [] => n.isEmpty
  | _ :: t => n.isPrefixOf h || listInfix n t

/-- Case-insensitive substring containment: the meaning of the unanchored
`{ $regex: search, $options: 'i' }` filters on `name`. -/
def ciContains (hay needle : String) : Bool :=
  listInfix (jsLower needle).data (jsLower hay).data

/-! ## The duplicate-name regex

Both create routes build `new RegExp('^' + name + '$', 'i')` from the
trimmed request name and hand it to `findOne` as a `$regex` condition, so
the user-supplied name is interpreted as a regular-expression pattern,
not as a literal string.  We model the pattern language these names reach:
literal characters, backslash-escapes taken literally, `.`, the
quantifiers `*`, `+` and `?`, grouping `(...)` and alternation `|`;
anchored whole-string matching stands for the surrounding `^...$`, and a
failed parse stands for the `SyntaxError` that `new RegExp` throws into
the route's catch-all 500 handler.  Constructs outside this subset
(character classes, brace quantifiers, in-name anchors, class escapes
such as a backslash-d) are mapped to a parse failure; every theorem below
quantifies only over names that avoid regex metacharacters altogether,
plus the concrete counterexample patterns, all of which stay inside the
subset. -/

/-- Syntax of the modelled regex fragment. -/
inductive JsRegex where
  | fail
  | epsilon
  | lit (c : Char)
  | dot
  | concat (a b : JsRegex)
  | alt (a b : JsRegex)
  | star (a : JsRegex)
deriving Repr, DecidableEq

/-- Whether the regex accepts the empty string. -/
def jsNullable : JsRegex → Bool
  | .fail => false
  | .epsilon => true
  | .lit _ => false
  | .dot => false
  | .concat a b => jsNullable a && jsNullable b
  | .alt a b => jsNullable a || jsNullable b
  | .star _ => true

/-- Brzozowski derivative by one input character; the `'i'` flag makes the
literal comparison case-insensitive, and `.` excludes the JS line
terminators. -/
def jsDeriv (r : JsRegex) (c : Char) : JsRegex :=
  match r with
  | .fail => .fail
  | .epsilon => .fail
  | .lit d => if c.toLower == d.toLower then .epsilon else .fail
  | .dot =>
    if c == '\n' || c == '\r' || c == Char.ofNat 0x2028 || c == Char.ofNat 0x2029 then
      .fail
    else .epsilon
  | .concat a b =>
    if jsNullable a then .alt (.concat (jsDeriv a c) b) (jsDeriv b c)
    else .concat (jsDeriv a c) b
  | .alt a b => .alt (jsDeriv a c) (jsDeriv b c)
  | .star a => .concat (jsDeriv a c) (.star a)

/-- Anchored (whole-string) match: the semantics of `^pattern$` with the
`'i'` flag. -/
def regexMatches (r : JsRegex) (s : String) : Bool :=
  jsNullable (s.data.foldl jsDeriv r)

/-- Characters that are regex syntax rather than literal text when a name
is spliced into `'^' + name + '$'`. -/
def isMeta (c : Char) : Bool :=
  c == '\\' || c == '^' || c == '$' || c == '.' || c == '|' || c == '?' ||
  c == '*' || c == '+' || c == '(' || c == ')' || c == '[' || c == ']' ||
  c == Char.ofNat 0x7b || c == Char.ofNat 0x7d

mutual

/-- Alternation level of the pattern grammar: a sequence, optionally
followed by `|` and another alternation. -/
def parseAlt : Nat → List Char → Option (JsRegex × List Char)
  | 0, _ => none
  | fuel + 1, cs =>
    match parseSeq fuel cs with
    | none => none
    | some (r, rest) =>
      match rest with
      | '|' :: rest2 =>
        match parseAlt fuel rest2 with
        | none => none
        | some (r2, rest3) => some (.alt r r2, rest3)
      | _ => some (r, rest)

/-- Sequence level: concatenation of terms up to `|`, `)` or the end. -/
def parseSeq : Nat → List Char → Option (JsRegex × List Char)
  | 0, _ => none
  | fuel + 1, cs =>
    match cs with
    | [] => some (.epsilon, [])
    | c :: _ =>
      if c == '|' || c == ')' then some (.epsilon, cs)
      else
        match parseTerm fuel cs with
        | none => none
        | some (r, rest) =>
          match parseSeq fuel rest with
          | none => none
          | some (r2, rest2) => some (.concat r r2, rest2)

/-- One atom with an optional `*`, `+` or `?` quantifier (a quantifier
following a quantifier reaches `parseAtom` and errors, as in JS). -/
def parseTerm : Nat → List Char → Option (JsRegex × List Char)
  | 0, _ => none
  | fuel + 1, cs =>
    match parseAtom fuel cs with
    | none => none
    | some (r, rest) =>
      match rest with
      | [] => some (r, [])
      | q :: rest2 =>
        if q == '*' then some (.star r, rest2)
        else if q == '+' then some (.concat r (.star r), rest2)
        else if q == '?' then some (.alt r .epsilon, rest2)
        else some (r, q :: rest2)

/-- An atom: an escaped character (taken literally), `.`, a parenthesised
group, or a literal non-metacharacter; a quantifier with nothing to
repeat, a dangling escape, or a construct outside the modelled subset is
a parse error (`new RegExp` throws). -/
def parseAtom : Nat → List Char → Option (JsRegex × List Char)
  | 0, _ => none
  | fuel + 1, cs =>
    match cs with
    | [] => none
    | c :: rest =>
      if c == '\\' then
        match rest with
        | [] => none
        | d :: rest2 => some (.lit d, rest2)
      else if c == '.' then some (.dot, rest)
      else if c == '(' then
        match parseAlt fuel rest with
        | none => none
        | some (r, rest2) =>
          match rest2 with
          | ')' :: rest3 => some (r, rest3)
          | _ => none
      else if isMeta c then none
      else some (.lit c, rest)

end

/-- Model of `new RegExp('^' + name + '$', 'i')` on the trimmed request
name: parse the name as the pattern body (`none` when the engine would
throw a `SyntaxError`, e.g. an unmatched parenthesis or a quantifier with
nothing to repeat); the `^`/`$` anchors are realised by `regexMatches`
testing the whole stored string.  The fuel exceeds the parser's maximal
call depth of four levels per consumed character. -/
def compileNameRegex (name : String) : Option JsRegex :=
  match parseAlt (4 * name.data.length + 8) name.data with
  | some (r, []) => some r
  | _ => none

/-- The pattern a purely literal (metacharacter-free) name parses to: the
concatenation of its characters. -/
def litRe : List Char → JsRegex
  | [] => .epsilon
  | c :: cs => .concat (.lit c) (litRe cs)

/-! ## Serialisation (virtual fields computed at read time) -/

/-- A Product as a response serialises it: all stored fields plus the
`rakam` virtual (`productSchema.virtual('rakam')` = `billing * price`). -/
structure ProductView where
  id : Nat
  name : String
  subCategoryId : Nat
  qty : Int
  price : Int
  billing : Int
  image : String
  sampleLocation : String
  ghodaLocation : String
  createdAt : Nat
  updatedAt : Nat
  rakam : Int
deriving Repr, DecidableEq

/-- Serialising a Product computes `rakam` from the record's current
`billing` and `price` (Product.js lines 59-62). -/
def serializeProduct (p : Product) : ProductView :=
  { id := p.id, name := p.name, subCategoryId := p.subCategoryId
    qty := p.qty, price := p.price, billing := p.billing
    image := p.image, sampleLocation := p.sampleLocation
    ghodaLocation := p.ghodaLocation
    createdAt := p.createdAt, updatedAt := p.updatedAt
    rakam := p.billing * p.price }

/-- A Category as a response: stored fields plus the `subCategoriesCount`
virtual (a count of SubCategory records whose `categoryId` matches). -/
structure CategoryView where
  id : Nat
  name : String
  createdAt : Nat
  subCategoriesCount : Nat
deriving Repr, DecidableEq

/-- The `subCategoriesCount` virtual on Category: a `count: true` populate
over SubCategory with `foreignField: 'categoryId'`, i.e. the number of
SubCategory records with a matching `categoryId`, taken from the current
store at serialisation time. -/
def subCategoriesCount (s : Store) (cid : Nat) : Nat :=
  (s.subCategories.filter (fun sc => sc.categoryId == cid)).length

/-- Serialising a Category evaluates the `subCategoriesCount` virtual
against the current store. -/
def serializeCategory (s : Store) (c : Category) : CategoryView :=
  { id := c.id, name := c.name, createdAt := c.createdAt
    subCategoriesCount := subCategoriesCount s c.id }

/-! ## Route handlers -/

/-- Result of `DELETE /api/categories/:id` and `DELETE /api/subcategories/:id`:
404 Not Found, or the success message. -/
inductive DeleteResult where
  | notFound
  | deleted
deriving Repr, DecidableEq

/-- `DELETE /api/categories/:id` (categories.js lines 129-155):
`findById`; 404 when absent; otherwise collect the ids of the
SubCategories under the category, `Product.deleteMany` on membership of
`subCategoryId` in that set, `SubCategory.deleteMany` on the
`categoryId`, then delete the Category itself. -/
def deleteCategory (s : Store) (cid : Nat) : DeleteResult × Store :=
  match s.categories.find? (fun c => c.id == cid) with
  | none => (.notFound, s)
  | some _ =>
    let subCats := s.subCategories.filter (fun sc => sc.categoryId == cid)
    let subCategoryIds := subCats.map (fun sc => sc.id)
    let s1 : Store :=
      { s with products :=
          s.products.filter (fun p => !(subCategoryIds.contains p.subCategoryId)) }
    let s2 : Store :=
      { s1 with subCategories :=
          s1.subCategories.filter (fun sc => !(sc.categoryId == cid)) }
    let s3 : Store :=
      { s2 with categories := s2.categories.filter (fun c => !(c.id == cid)) }
    (.deleted, s3)

/-- `DELETE /api/subcategories/:id` (subcategories route, lines 144-163):
`findById`; 404 when absent; otherwise `Product.deleteMany` on the
`subCategoryId`, then delete the SubCategory. -/
def deleteSubCategory (s : Store) (scid : Nat) : DeleteResult × Store :=
  match s.subCategories.find? (fun sc => sc.id == scid) with
  | none => (.notFound, s)
  | some _ =>
    let s1 : Store :=
      { s with products := s.products.filter (fun p => !(p.subCategoryId == scid)) }
    let s2 : Store :=
      { s1 with subCategories := s1.subCategories.filter (fun sc => !(sc.id == scid)) }
    (.deleted, s2)

/-- Outcome of a create route: 400 with field errors, 400 duplicate-name
conflict, 400/404 missing referenced parent, the catch-all 500 (reached
when `new RegExp` throws on the name), or 201 with the new record. -/
inductive CreateResult (α : Type) where
  | validationError
  | conflict
  | notFound
  | serverError
  | created (val : α)
deriving Repr, DecidableEq

/-- `POST /api/categories` (categories.js lines 55-82): the validator trims
`name` and rejects empty / over-100-char names; then the route builds
`new RegExp('^' + name + '$', 'i')` from the name — a throwing
constructor lands in the catch-all 500 — and a `findOne` on that regex
rejects duplicates; otherwise `Category.create`. -/
def createCategory (s : Store) (rawName : String) (newId now : Nat) :
    CreateResult Category × Store :=
  let name := jsTrim rawName
  if name.isEmpty ∨ 100 < name.length then (.validationError, s)
  else
    match compileNameRegex name with
    | none => (.serverError, s)
    | some re =>
      match s.categories.find? (fun c => regexMatches re c.name) with
      | some _ => (.conflict, s)
      | none =>
        let c : Category := { id := newId, name := name, createdAt := now }
        (.created c, { s with categories := s.categories ++ [c] })

/-- `POST /api/subcategories` (subcategories route, lines 60-94): the
validator trims `name` and rejects empty / over-100-char names; then the
route builds the same anchored case-insensitive regex from the name (a
throwing constructor lands in the catch-all 500) and the duplicate
lookup conjoins it with the given `categoryId`; otherwise
`SubCategory.create`.  The handler never looks the parent Category up. -/
def createSubCategory (s : Store) (rawName : String) (categoryId newId now : Nat) :
    CreateResult SubCategory × Store :=
  let name := jsTrim rawName
  if name.isEmpty ∨ 100 < name.length then (.validationError, s)
  else
    match compileNameRegex name with
    | none => (.serverError, s)
    | some re =>
      match s.subCategories.find?
          (fun sc => regexMatches re sc.name && sc.categoryId == categoryId) with
      | some _ => (.conflict, s)
      | none =>
        let sc : SubCategory :=
          { id := newId, name := name, categoryId := categoryId, createdAt := now }
        (.created sc, { s with subCategories := s.subCategories ++ [sc] })

/-- Request body of `POST /api/products` after JSON parsing; the three
optional strings may be absent. -/
structure ProductCreateReq where
  name : String
  subCategoryId : Nat
  qty : Int
  price : Int
  billing : Int
  image : Option String
  sampleLocation : Option String
  ghodaLocation : Option String
deriving Repr, DecidableEq

/-- `POST /api/products` (products.js lines 172-224): validation (trimmed
non-empty name of at most 200 chars, non-negative qty/price/billing), then
`SubCategory.findById` — 400 `SubCategory not found` when the parent is
absent — then `Product.create` with `''` defaults for the optional
strings; the schema defaults and the save hook stamp `createdAt` and
`updatedAt` with the current time. -/
def createProduct (s : Store) (req : ProductCreateReq) (newId now : Nat) :
    CreateResult ProductView × Store :=
  let name := jsTrim req.name
  if name.isEmpty ∨ 200 < name.length ∨ req.qty < 0 ∨ req.price < 0 ∨ req.billing < 0 then
    (.validationError, s)
  else
    match s.subCategories.find? (fun sc => sc.id == req.subCategoryId) with
    | none => (.notFound, s)
    | some _ =>
      let p : Product :=
        { id := newId, name := name, subCategoryId := req.subCategoryId
          qty := req.qty, price := req.price, billing := req.billing
          image := req.image.getD ""
          sampleLocation := jsTrim (req.sampleLocation.getD "")
          ghodaLocation := jsTrim (req.ghodaLocation.getD "")
          createdAt := now, updatedAt := now }
      (.created (serializeProduct p), { s with products := s.products ++ [p] })

/-- `GET /api/categories/:id` (categories.js lines 36-50): `findById`, 404
when absent, otherwise the Category serialised with its
`subCategoriesCount` virtual populated from the current store. -/
def getCategory (s : Store) (cid : Nat) : Option CategoryView × Store :=
  match s.categories.find? (fun c => c.id == cid) with
  | none => (none, s)
  | some c => (some (serializeCategory s c), s)

/-- `GET /api/categories` (categories.js lines 13-31): optional
case-insensitive name search (`if (search)` is false on an empty string),
sort by name ascending, each record serialised with its
`subCategoriesCount` virtual. -/
def getCategories (s : Store) (search : Option String) : List CategoryView × Store :=
  let matched := s.categories.filter (fun c =>
    match search with
    | none => true
    | some t => if t.isEmpty then true else ciContains c.name t)
  let sorted := matched.mergeSort (fun a b => a.name ≤ b.name)
  (sorted.map (serializeCategory s), s)

/-- `GET /api/products/:id` (products.js lines 146-167): `findById`, 404
when absent, otherwise the Product serialised (which computes `rakam`). -/
def getProduct (s : Store) (pid : Nat) : Option ProductView × Store :=
  match s.products.find? (fun p => p.id == pid) with
  | none => (none, s)
  | some p => (some (serializeProduct p), s)

/-- Query parameters of `GET /api/products`; `page` and `limit` carry the
route's defaults. -/
structure ProductListParams where
  subCategoryId : Option Nat := none
  categoryId : Option Nat := none
  search : Option String := none
  qtyMin : Option Int := none
  qtyMax : Option Int := none
  page : Nat := 1
  limit : Nat := 20
deriving Repr, DecidableEq

/-- The `subCategoryId` condition of the Mongo query built by
`GET /api/products`: absent, a single-id equality, or an `$in` set. -/
inductive SubCatCond where
  | any
  | eqId (id : Nat)
  | inIds (ids : List Nat)
deriving Repr, DecidableEq

/-- The Mongo query object assembled by `GET /api/products`. -/
structure ProductQuery where
  subCat : SubCatCond
  search : Option String
  qtyMin : Option Int
  qtyMax : Option Int
deriving Repr, DecidableEq

/-- Query assembly of `GET /api/products` (products.js lines 24-52):
`subCategoryId` wins; the Category-to-SubCategory resolution runs only
under `categoryId && !subCategoryId`; the qty bounds translate to
`$gte`/`$lte`. -/
def buildProductQuery (s : Store) (ps : ProductListParams) : ProductQuery :=
  let subCat : SubCatCond :=
    match ps.subCategoryId with
    | some scid => .eqId scid
    | none =>
      match ps.categoryId with
      | some cid =>
        .inIds ((s.subCategories.filter (fun sc => sc.categoryId == cid)).map
          (fun sc => sc.id))
      | none => .any
  { subCat := subCat, search := ps.search, qtyMin := ps.qtyMin, qtyMax := ps.qtyMax }

/-- The `subCategoryId` condition of the query applied to a Product. -/
def matchesSubCat (c : SubCatCond) (p : Product) : Bool :=
  match c with
  | .any => true
  | .eqId i => p.subCategoryId == i
  | .inIds l => l.contains p.subCategoryId

/-- The name-search condition: a case-insensitive substring match; an empty
search string is falsy in JS and adds no condition. -/
def matchesSearch (search : Option String) (p : Product) : Bool :=
  match search with
  | none => true
  | some t => if t.isEmpty then true else ciContains p.name t

/-- The `$gte` bound on `qty`: inclusive; absent means unbounded below. -/
def qtyMinOk (qtyMin : Option Int) (p : Product) : Bool :=
  match qtyMin with
  | none => true
  | some m => decide (m ≤ p.qty)

/-- The `$lte` bound on `qty`: inclusive; absent means unbounded above. -/
def qtyMaxOk (qtyMax : Option Int) (p : Product) : Bool :=
  match qtyMax with
  | none => true
  | some n => decide (p.qty ≤ n)

/-- Whether a stored Product matches the assembled query: the conjunction
of the four conditions the route may put on the query object. -/
def matchesQuery (q : ProductQuery) (p : Product) : Bool :=
  matchesSubCat q.subCat p && matchesSearch q.search p &&
    qtyMinOk q.qtyMin p && qtyMaxOk q.qtyMax p

/-- The full match set of a product query, sorted by `updatedAt`
descending (`.sort({ updatedAt: -1 })`), before any skip/limit: what an
unpaginated fetch would return. -/
def sortedMatch (s : Store) (q : ProductQuery) : List Product :=
  (s.products.filter (fun p => matchesQuery q p)).mergeSort
    (fun a b => b.updatedAt ≤ a.updatedAt)

/-- Body of the `GET /api/products` response: one page of serialised
products plus the pagination block. -/
structure ProductListResponse where
  products : List ProductView
  page : Nat
  limit : Nat
  total : Nat
  pages : Nat
deriving Repr, DecidableEq

/-- `GET /api/products` (products.js lines 12-85): build the query, sort by
`updatedAt` descending, `skip((page-1)*limit).limit(limit)`, and report
`total = countDocuments(query)` and `pages = Math.ceil(total / limit)`
(written for naturals as `(total + limit - 1) / limit`). -/
def listProducts (s : Store) (ps : ProductListParams) : ProductListResponse × Store :=
  let q := buildProductQuery s ps
  let matched := sortedMatch s q
  let skip := (ps.page - 1) * ps.limit
  let pageItems := ((matched.drop skip).take ps.limit).map serializeProduct
  let total := matched.length
  ({ products := pageItems, page := ps.page, limit := ps.limit, total := total
     pages := (total + ps.limit - 1) / ps.limit }, s)

/-- Request body of `PUT /api/products/:id`: every field optional;
`subCategoryId` is not updatable through this route. -/
structure ProductUpdateReq where
  name : Option String := none
  qty : Option Int := none
  price : Option Int := none
  billing : Option Int := none
  image : Option String := none
  sampleLocation : Option String := none
  ghodaLocation : Option String := none
deriving Repr, DecidableEq

/-- The optional-field validators of `PUT /api/products/:id`: a supplied
name must be non-empty after trimming and at most 200 chars; supplied
qty/price/billing must be non-negative. -/
def updateReqValid (u : ProductUpdateReq) : Bool :=
  (match u.name with
   | none => true
   | some n => !(jsTrim n).isEmpty && (jsTrim n).length ≤ 200) &&
  (match u.qty with | none => true | some v => decide (0 ≤ v)) &&
  (match u.price with | none => true | some v => decide (0 ≤ v)) &&
  (match u.billing with | none => true | some v => decide (0 ≤ v))

/-- Effect of `findByIdAndUpdate` with the assembled `updateData`: each
supplied field overwrites the stored one (strings through the schema trim
setter), and the `pre('findOneAndUpdate')` hook stamps `updatedAt` with
the current time regardless of which fields were supplied. -/
def applyProductUpdate (p : Product) (u : ProductUpdateReq) (now : Nat) : Product :=
  { p with
    name := match u.name with | some n => jsTrim n | none => p.name
    qty := u.qty.getD p.qty
    price := u.price.getD p.price
    billing := u.billing.getD p.billing
    image := u.image.getD p.image
    sampleLocation := match u.sampleLocation with | some v => jsTrim v | none => p.sampleLocation
    ghodaLocation := match u.ghodaLocation with | some v => jsTrim v | none => p.ghodaLocation
    updatedAt := now }

/-- Outcome of `PUT /api/products/:id`. -/
inductive UpdateResult where
  | validationError
  | notFound
  | updated (v : ProductView)
deriving Repr, DecidableEq

/-- `PUT /api/products/:id` (products.js lines 229-280): validation, then
`findById` — 404 when absent — then `findByIdAndUpdate` with only the
supplied fields; the pre-update hook refreshes `updatedAt`; the updated
document is serialised back. -/
def updateProduct (s : Store) (pid : Nat) (u : ProductUpdateReq) (now : Nat) :
    UpdateResult × Store :=
  if !updateReqValid u then (.validationError, s)
  else
    match s.products.find? (fun p => p.id == pid) with
    | none => (.notFound, s)
    | some p =>
      let p' := applyProductUpdate p u now
      let s' : Store :=
        { s with products :=
            s.products.map (fun q => if q.id == pid then applyProductUpdate q u now else q) }
      (.updated (serializeProduct p'), s')

/-! ## Theorems -/

/-- Folding the derivative from the failure regex stays at failure. -/
theorem foldl_jsDeriv_fail (cs : List Char) : cs.foldl jsDeriv .fail = .fail := by
  induction cs with
  | nil => rfl
  | cons c cs ih =>
    rw [List.foldl_cons, show jsDeriv .fail c = .fail from rfl]
    exact ih

/-- The derivative distributes over alternation, hence so does the fold. -/
theorem foldl_jsDeriv_alt (cs : List Char) (a b : JsRegex) :
    cs.foldl jsDeriv (.alt a b) = .alt (cs.foldl jsDeriv a) (cs.foldl jsDeriv b) := by
  induction cs generalizing a b with
  | nil => rfl
  | cons c cs ih =>
    rw [List.foldl_cons, show jsDeriv (.alt a b) c = .alt (jsDeriv a c) (jsDeriv b c) from rfl]
    exact ih _ _

/-- A concatenation headed by the failure regex never accepts. -/
theorem jsNullable_foldl_concat_fail (cs : List Char) (r : JsRegex) :
    jsNullable (cs.foldl jsDeriv (.concat .fail r)) = false := by
  induction cs generalizing r with
  | nil => rfl
  | cons c cs ih =>
    rw [List.foldl_cons, show jsDeriv (.concat .fail r) c = .concat .fail r from rfl]
    exact ih r

/-- A concatenation headed by the empty regex accepts the same inputs as
its tail. -/
theorem jsNullable_foldl_concat_epsilon (cs : List Char) (r : JsRegex) :
    jsNullable (cs.foldl jsDeriv (.concat .epsilon r))
      = jsNullable (cs.foldl jsDeriv r) := by
  induction cs generalizing r with
  | nil => simp [jsNullable]
  | cons c cs ih =>
    rw [List.foldl_cons, List.foldl_cons,
      show jsDeriv (.concat .epsilon r) c = .alt (.concat .fail r) (jsDeriv r c) from rfl,
      foldl_jsDeriv_alt]
    simp [jsNullable, jsNullable_foldl_concat_fail]

/-- Matching the literal concatenation of a character list is exactly
case-insensitive equality of the character lists. -/
theorem jsNullable_foldl_litRe (cs ps : List Char) :
    jsNullable (cs.foldl jsDeriv (litRe ps))
      = (cs.map Char.toLower == ps.map Char.toLower) := by
  induction cs generalizing ps with
  | nil =>
    cases ps with
    | nil => rfl
    | cons p ps => rfl
  | cons c cs ih =>
    cases ps with
    | nil =>
      rw [show litRe [] = .epsilon from rfl, List.foldl_cons,
        show jsDeriv .epsilon c = .fail from rfl, foldl_jsDeriv_fail]
      rfl
    | cons p ps =>
      rw [List.foldl_cons]
      cases h : (c.toLower == p.toLower) with
      | true =>
        have hd : jsDeriv (litRe (p :: ps)) c = .concat .epsilon (litRe ps) := by
          simp [litRe, jsDeriv, jsNullable, h]
        rw [hd, jsNullable_foldl_concat_epsilon, ih,
          List.map_cons, List.map_cons,
          show ((c.toLower :: cs.map Char.toLower) == (p.toLower :: ps.map Char.toLower))
            = ((c.toLower == p.toLower) && (cs.map Char.toLower == ps.map Char.toLower))
            from rfl, h]
        simp
      | false =>
        have hd : jsDeriv (litRe (p :: ps)) c = .concat .fail (litRe ps) := by
          simp [litRe, jsDeriv, jsNullable, h]
        rw [hd, jsNullable_foldl_concat_fail,
          List.map_cons, List.map_cons,
          show ((c.toLower :: cs.map Char.toLower) == (p.toLower :: ps.map Char.toLower))
            = ((c.toLower == p.toLower) && (cs.map Char.toLower == ps.map Char.toLower))
            from rfl, h]
        simp

/-- On a purely literal pattern the anchored case-insensitive regex test
is exactly `ciEq`. -/
theorem regexMatches_litRe (name t : String) :
    regexMatches (litRe name.data) t = ciEq t name := by
  unfold regexMatches ciEq jsLower
  rw [jsNullable_foldl_litRe, Bool.eq_iff_iff, beq_iff_eq, beq_iff_eq, String.ext_iff]

/-- A non-metacharacter never equals a metacharacter. -/
theorem notMeta_ne (c d : Char) (hc : isMeta c = false) (hd : isMeta d = true) :
    (c == d) = false := by
  cases h : c == d with
  | false => rfl
  | true =>
    rw [eq_of_beq h] at hc
    rw [hc] at hd
    exact absurd hd Bool.false_ne_true

/-- The parser turns a leading non-metacharacter into a literal atom. -/
theorem parseAtom_lit (fuel : Nat) (c : Char) (ps : List Char)
    (hc : isMeta c = false) :
    parseAtom (fuel + 1) (c :: ps) = some (.lit c, ps) := by
  have h1 := notMeta_ne c '\\' hc (by decide)
  have h2 := notMeta_ne c '.' hc (by decide)
  have h3 := notMeta_ne c '(' hc (by decide)
  simp [parseAtom, h1, h2, h3, hc]

/-- A literal atom followed by non-metacharacters takes no quantifier. -/
theorem parseTerm_lit (fuel : Nat) (c : Char) (ps : List Char)
    (hc : isMeta c = false) (hps : ∀ d ∈ ps, isMeta d = false) :
    parseTerm (fuel + 2) (c :: ps) = some (.lit c, ps) := by
  have hatom := parseAtom_lit fuel c ps hc
  cases ps with
  | nil => simp [parseTerm, hatom]
  | cons q rest2 =>
    have hq1 := notMeta_ne q '*' (hps q (List.Mem.head _)) (by decide)
    have hq2 := notMeta_ne q '+' (hps q (List.Mem.head _)) (by decide)
    have hq3 := notMeta_ne q '?' (hps q (List.Mem.head _)) (by decide)
    simp [parseTerm, hatom, hq1, hq2, hq3]

/-- One unfolding step of `parseSeq` at a character that neither stops a
sequence nor closes a group. -/
theorem parseSeq_cons_step (fuel : Nat) (c : Char) (ps : List Char)
    (hg1 : (c == '|') = false) (hg2 : (c == ')') = false) :
    parseSeq (fuel + 1) (c :: ps)
      = match parseTerm fuel (c :: ps) with
        | none => none
        | some (r, rest) =>
          match parseSeq fuel rest with
          | none => none
          | some (r2, rest2) => some (.concat r r2, rest2) := by
  simp [parseSeq, hg1, hg2]

/-- A metacharacter-free input parses, with enough fuel, to the literal
concatenation of its characters, consuming everything. -/
theorem parseSeq_lits (ps : List Char) (h : ∀ c ∈ ps, isMeta c = false) :
    ∀ fuel, ps.length + 2 ≤ fuel → parseSeq fuel ps = some (litRe ps, []) := by
  induction ps with
  | nil =>
    intro fuel hf
    obtain ⟨f, rfl⟩ : ∃ f, fuel = f + 1 := ⟨fuel - 1, by omega⟩
    rfl
  | cons c ps ih =>
    intro fuel hf
    obtain ⟨f, rfl⟩ : ∃ f, fuel = f + 2 + 1 := ⟨fuel - 3, by simp at hf; omega⟩
    have hc := h c (List.Mem.head _)
    have hg1 := notMeta_ne c '|' hc (by decide)
    have hg2 := notMeta_ne c ')' hc (by decide)
    have hterm := parseTerm_lit f c ps hc (fun d hd => h d (List.mem_cons_of_mem _ hd))
    have hseq := ih (fun d hd => h d (List.mem_cons_of_mem _ hd)) (f + 2)
      (by simp at hf; omega)
    rw [parseSeq_cons_step (f + 2) c ps hg1 hg2]
    simp only [hterm, hseq, litRe]

/-- Top level of the parser on a metacharacter-free input. -/
theorem parseAlt_lits (ps : List Char) (h : ∀ c ∈ ps, isMeta c = false)
    (fuel : Nat) (hf : ps.length + 3 ≤ fuel) :
    parseAlt fuel ps = some (litRe ps, []) := by
  obtain ⟨f, rfl⟩ : ∃ f, fuel = f + 1 := ⟨fuel - 1, by omega⟩
  have hseq := parseSeq_lits ps h f (by omega)
  simp [parseAlt, hseq]

/-- Compiling a metacharacter-free name yields the literal pattern of its
characters — `new RegExp` does not throw on such names. -/
theorem compileNameRegex_lits (name : String)
    (h : ∀ c ∈ name.data, isMeta c = false) :
    compileNameRegex name = some (litRe name.data) := by
  unfold compileNameRegex
  rw [parseAlt_lits name.data h _ (by omega)]

/-- C1: `deleteCategory` returns NotFound exactly when no Category with the
given id is stored, and otherwise ends in a state where no SubCategory
with that `categoryId` survives, no Product whose `subCategoryId` was one
of the category's child SubCategory ids survives, and the Category record
itself is gone. -/
theorem deleteCategory_cascades (s : Store) (cid : Nat) :
    ((∀ c ∈ s.categories, c.id ≠ cid) → deleteCategory s cid = (.notFound, s)) ∧
    (∀ c ∈ s.categories, c.id = cid →
      (deleteCategory s cid).1 = .deleted ∧
      (∀ sc ∈ (deleteCategory s cid).2.subCategories, sc.categoryId ≠ cid) ∧
      (∀ p ∈ (deleteCategory s cid).2.products,
        p.subCategoryId ∉
          (s.subCategories.filter (fun sc => sc.categoryId == cid)).map
            (fun sc => sc.id)) ∧
      (∀ c' ∈ (deleteCategory s cid).2.categories, c'.id ≠ cid)) := by
  constructor
  · intro h
    have hf : s.categories.find? (fun c => c.id == cid) = none := by
      rw [List.find?_eq_none]
      intro c hc
      simpa using h c hc
    simp [deleteCategory, hf]
  · intro c hc hcid
    rcases hfind : s.categories.find? (fun x => x.id == cid) with _ | c0
    · rw [List.find?_eq_none] at hfind
      have h2 := hfind c hc
      simp [hcid] at h2
    · refine ⟨by simp [deleteCategory, hfind], ?_, ?_, ?_⟩
      · intro sc hsc
        simp [deleteCategory, hfind, List.mem_filter] at hsc
        exact hsc.2
      · intro p hp
        simp [deleteCategory, hfind, List.mem_filter] at hp
        simpa using hp.2
      · intro c' hc'
        simp [deleteCategory, hfind, List.mem_filter] at hc'
        exact hc'.2

/-- A small concrete store: two Categories, three SubCategories, three
Products, used to instantiate the theorems. -/
def sampleStore : Store :=
  { categories :=
      [{ id := 1, name := "Teak", createdAt := 0 },
       { id := 2, name := "Oak", createdAt := 0 }]
    subCategories :=
      [{ id := 10, name := "Teak Quarter", categoryId := 1, createdAt := 0 },
       { id := 11, name := "Teak Crown", categoryId := 1, createdAt := 0 },
       { id := 12, name := "Oak Rift", categoryId := 2, createdAt := 0 }]
    products :=
      [{ id := 100, name := "TQ-001", subCategoryId := 10, qty := 50, price := 150,
         billing := 100, image := "", sampleLocation := "", ghodaLocation := "",
         createdAt := 0, updatedAt := 3 },
       { id := 101, name := "TC-001", subCategoryId := 11, qty := 5, price := 10,
         billing := 2, image := "", sampleLocation := "", ghodaLocation := "",
         createdAt := 0, updatedAt := 2 },
       { id := 102, name := "OR-001", subCategoryId := 12, qty := 7, price := 20,
         billing := 3, image := "", sampleLocation := "", ghodaLocation := "",
         createdAt := 0, updatedAt := 1 }] }

/-- Witness for C1 at the concrete store: Category 1 is stored and deleting
it succeeds. -/
theorem deleteCategory_cascades_witness :
    ({ id := 1, name := "Teak", createdAt := 0 } : Category) ∈ sampleStore.categories ∧
    (deleteCategory sampleStore 1).1 = .deleted :=
  ⟨List.Mem.head _,
   ((deleteCategory_cascades sampleStore 1).2
     { id := 1, name := "Teak", createdAt := 0 } (List.Mem.head _) rfl).1⟩

/-- C3: `deleteSubCategory` returns NotFound exactly when no SubCategory
with the given id is stored, and otherwise ends in a state where no
Product with that `subCategoryId` survives and the SubCategory itself is
gone. -/
theorem deleteSubCategory_cascades (s : Store) (scid : Nat) :
    ((∀ sc ∈ s.subCategories, sc.id ≠ scid) → deleteSubCategory s scid = (.notFound, s)) ∧
    (∀ sc ∈ s.subCategories, sc.id = scid →
      (deleteSubCategory s scid).1 = .deleted ∧
      (∀ p ∈ (deleteSubCategory s scid).2.products, p.subCategoryId ≠ scid) ∧
      (∀ sc' ∈ (deleteSubCategory s scid).2.subCategories, sc'.id ≠ scid)) := by
  constructor
  · intro h
    have hf : s.subCategories.find? (fun sc => sc.id == scid) = none := by
      rw [List.find?_eq_none]
      intro sc hsc
      simpa using h sc hsc
    simp [deleteSubCategory, hf]
  · intro sc hsc hscid
    rcases hfind : s.subCategories.find? (fun x => x.id == scid) with _ | sc0
    · rw [List.find?_eq_none] at hfind
      have h2 := hfind sc hsc
      simp [hscid] at h2
    · refine ⟨by simp [deleteSubCategory, hfind], ?_, ?_⟩
      · intro p hp
        simp [deleteSubCategory, hfind, List.mem_filter] at hp
        exact hp.2
      · intro sc' hsc'
        simp [deleteSubCategory, hfind, List.mem_filter] at hsc'
        exact hsc'.2

/-- Witness for C3 at the concrete store: SubCategory 10 is stored and
deleting it succeeds. -/
theorem deleteSubCategory_cascades_witness :
    ({ id := 10, name := "Teak Quarter", categoryId := 1, createdAt := 0 } : SubCategory)
        ∈ sampleStore.subCategories ∧
    (deleteSubCategory sampleStore 10).1 = .deleted :=
  ⟨List.Mem.head _,
   ((deleteSubCategory_cascades sampleStore 10).2
     { id := 10, name := "Teak Quarter", categoryId := 1, createdAt := 0 }
     (List.Mem.head _) rfl).1⟩

/-- The Product record with id 100 stored in `sampleStore`. -/
def sampleProduct : Product :=
  { id := 100, name := "TQ-001", subCategoryId := 10, qty := 50, price := 150,
    billing := 100, image := "", sampleLocation := "", ghodaLocation := "",
    createdAt := 0, updatedAt := 3 }

/-- C2 counterexample: on an empty store — so no Category with id 7
exists — creating a SubCategory under categoryId 7 does not fail with
NotFound: it succeeds and stores the orphan record. -/
theorem createSubCategory_orphan_counterexample :
    (Store.mk [] [] []).categories = [] ∧
    (createSubCategory (Store.mk [] [] []) "Teak Quarter" 7 1 0).1
      = .created { id := 1, name := "Teak Quarter", categoryId := 7, createdAt := 0 } ∧
    (createSubCategory (Store.mk [] [] []) "Teak Quarter" 7 1 0).2.subCategories
      = [{ id := 1, name := "Teak Quarter", categoryId := 7, createdAt := 0 }] := by
  refine ⟨rfl, ?_, ?_⟩ <;> rfl

/-- C2 (amended): `POST /api/subcategories` performs no existence check on
`categoryId`.  Whenever the trimmed name passes validation, contains no
regex metacharacters (so the duplicate-name regex is the literal name),
and no case-insensitive duplicate name exists under the given
`categoryId`, the create succeeds and appends the record with that
`categoryId` — even when no Category with that id is stored — and the
route never returns NotFound. -/
theorem createSubCategory_no_parent_check (s : Store) (rawName : String)
    (categoryId newId now : Nat)
    (hname : (jsTrim rawName).isEmpty = false ∧ (jsTrim rawName).length ≤ 100)
    (hplain : ∀ c ∈ (jsTrim rawName).data, isMeta c = false)
    (hnodup : ∀ sc ∈ s.subCategories,
      (ciEq sc.name (jsTrim rawName) && sc.categoryId == categoryId) = false) :
    (createSubCategory s rawName categoryId newId now).1
      = .created { id := newId, name := jsTrim rawName, categoryId := categoryId,
                   createdAt := now } ∧
    (createSubCategory s rawName categoryId newId now).2.subCategories
      = s.subCategories
        ++ [{ id := newId, name := jsTrim rawName, categoryId := categoryId,
              createdAt := now }] ∧
    (createSubCategory s rawName categoryId newId now).1 ≠ .notFound := by
  have hif : ¬((jsTrim rawName).isEmpty = true ∨ 100 < (jsTrim rawName).length) := by
    rcases hname with ⟨h1, h2⟩
    rintro (h | h)
    · rw [h1] at h
      exact Bool.false_ne_true h
    · omega
  have hcomp : compileNameRegex (jsTrim rawName) = some (litRe (jsTrim rawName).data) :=
    compileNameRegex_lits _ hplain
  have hpred : (fun sc : SubCategory =>
        regexMatches (litRe (jsTrim rawName).data) sc.name && sc.categoryId == categoryId)
      = (fun sc => ciEq sc.name (jsTrim rawName) && sc.categoryId == categoryId) := by
    funext sc
    rw [regexMatches_litRe]
  have hfind : s.subCategories.find?
      (fun sc => ciEq sc.name (jsTrim rawName) && sc.categoryId == categoryId) = none := by
    rw [List.find?_eq_none]
    intro sc hsc
    simp [hnodup sc hsc]
  simp [createSubCategory, hif, hcomp, hpred, hfind]

/-- Witness for the amended C2 at the empty store: no Category exists,
the name is valid and metacharacter-free, and the create succeeds
anyway. -/
theorem createSubCategory_no_parent_check_witness :
    ((jsTrim "Teak Quarter").isEmpty = false ∧ (jsTrim "Teak Quarter").length ≤ 100) ∧
    (createSubCategory (Store.mk [] [] []) "Teak Quarter" 7 1 0).1
      = .created { id := 1, name := jsTrim "Teak Quarter", categoryId := 7,
                   createdAt := 0 } :=
  ⟨⟨by decide, by decide⟩,
   (createSubCategory_no_parent_check (Store.mk [] [] []) "Teak Quarter" 7 1 0
     ⟨by decide, by decide⟩ (by decide)
     (fun sc hsc => absurd hsc (List.not_mem_nil sc))).1⟩

/-- C4: every Product observed through a read is the serialisation of a
currently stored record, and the serialisation computes `rakam` as
`billing * price` from the record's current fields; no read mutates the
store.  `rakam` is not a field of the stored `Product` record, so it is
never persisted. -/
theorem rakam_recomputed (s : Store) (pid : Nat) :
    (∀ p, s.products.find? (fun q => q.id == pid) = some p →
      (getProduct s pid).1 = some (serializeProduct p) ∧ (getProduct s pid).2 = s) ∧
    (∀ p : Product, (serializeProduct p).rakam
      = (serializeProduct p).billing * (serializeProduct p).price) ∧
    (∀ ps : ProductListParams, ∀ v ∈ (listProducts s ps).1.products,
      (∃ q ∈ s.products, v = serializeProduct q) ∧ v.rakam = v.billing * v.price) := by
  refine ⟨?_, ?_, ?_⟩
  · intro p hp
    exact ⟨by simp [getProduct, hp], by simp [getProduct, hp]⟩
  · intro p
    rfl
  · intro ps v hv
    have hv' : v ∈ (((sortedMatch s (buildProductQuery s ps)).drop
        ((ps.page - 1) * ps.limit)).take ps.limit).map serializeProduct := hv
    rcases List.mem_map.1 hv' with ⟨q, hq, rfl⟩
    have hq1 := List.mem_of_mem_drop (List.mem_of_mem_take hq)
    simp only [sortedMatch, List.mem_mergeSort] at hq1
    exact ⟨⟨q, (List.mem_filter.1 hq1).1, rfl⟩, rfl⟩

/-- Witness for C4 at the concrete store: reading Product 100 returns its
serialisation, whose `rakam` is its `billing * price`. -/
theorem rakam_recomputed_witness :
    sampleStore.products.find? (fun q => q.id == 100) = some sampleProduct ∧
    (getProduct sampleStore 100).1 = some (serializeProduct sampleProduct) ∧
    (serializeProduct sampleProduct).rakam
      = (serializeProduct sampleProduct).billing * (serializeProduct sampleProduct).price :=
  ⟨rfl,
   ((rakam_recomputed sampleStore 100).1 sampleProduct rfl).1,
   (rakam_recomputed sampleStore 100).2.1 sampleProduct⟩

/-- C5: every Category view produced by the list fetch or the single fetch
reports `subCategoriesCount` equal to the number of SubCategory records
whose `categoryId` matches in the store at the moment of the fetch, and
neither fetch mutates the store. -/
theorem subCategoriesCount_fresh (s : Store) (cid : Nat) (search : Option String) :
    (∀ v ∈ (getCategories s search).1,
      v.subCategoriesCount
        = (s.subCategories.filter (fun sc => sc.categoryId == v.id)).length) ∧
    (∀ v, (getCategory s cid).1 = some v →
      v.subCategoriesCount
        = (s.subCategories.filter (fun sc => sc.categoryId == v.id)).length) ∧
    (getCategories s search).2 = s ∧ (getCategory s cid).2 = s := by
  refine ⟨?_, ?_, rfl, ?_⟩
  · intro v hv
    have hv' : v ∈ ((s.categories.filter (fun c =>
        match search with
        | none => true
        | some t => if t.isEmpty then true else ciContains c.name t)).mergeSort
          (fun a b => a.name ≤ b.name)).map (serializeCategory s) := hv
    rcases List.mem_map.1 hv' with ⟨c, _, rfl⟩
    rfl
  · intro v hv
    cases hfind : s.categories.find? (fun c => c.id == cid) with
    | none => simp [getCategory, hfind] at hv
    | some c =>
      simp [getCategory, hfind] at hv
      subst hv
      rfl
  · cases hfind : s.categories.find? (fun c => c.id == cid) with
    | none => simp [getCategory, hfind]
    | some c => simp [getCategory, hfind]

/-- Witness for C5 at the concrete store: fetching Category 1 reports the
count of its two stored SubCategories, recomputed from the store. -/
theorem subCategoriesCount_fresh_witness :
    (getCategory sampleStore 1).1
      = some (serializeCategory sampleStore { id := 1, name := "Teak", createdAt := 0 }) ∧
    (serializeCategory sampleStore { id := 1, name := "Teak", createdAt := 0 }).subCategoriesCount
      = (sampleStore.subCategories.filter (fun sc =>
          sc.categoryId
            == (serializeCategory sampleStore
                { id := 1, name := "Teak", createdAt := 0 }).id)).length :=
  ⟨rfl, (subCategoriesCount_fresh sampleStore 1 none).2.1 _ rfl⟩

/-- A store holding one Category named "abc", for the C6 counterexample. -/
def abcStore : Store :=
  { categories := [{ id := 1, name := "abc", createdAt := 0 }]
    subCategories := [], products := [] }

/-- A store holding one Category named "A+B", for the C6 counterexample. -/
def plusStore : Store :=
  { categories := [{ id := 1, name := "A+B", createdAt := 0 }]
    subCategories := [], products := [] }

/-- C6 counterexample: the duplicate check interprets the raw name as a
regex, so the claim fails on reachable inputs.  Creating "a.c" against a
stored "abc" — not a case-insensitive duplicate — is rejected with
Conflict and adds no record; creating "a+b" against a stored "A+B" — a
genuine case-insensitive duplicate — succeeds and adds a second record;
and "C++" is an invalid pattern, so the create fails with the catch-all
server error rather than Conflict or success. -/
theorem createCategory_regex_counterexample :
    ciEq "abc" "a.c" = false ∧
    createCategory abcStore "a.c" 2 0 = (.conflict, abcStore) ∧
    ciEq "A+B" "a+b" = true ∧
    (createCategory plusStore "a+b" 2 0).1
      = .created { id := 2, name := "a+b", createdAt := 0 } ∧
    (createCategory plusStore "a+b" 2 0).2.categories
      = plusStore.categories ++ [{ id := 2, name := "a+b", createdAt := 0 }] ∧
    (createCategory abcStore "C++" 2 0).1 = .serverError := by
  refine ⟨by decide, ?_, by decide, ?_, ?_, ?_⟩ <;> rfl

/-- C6 (amended): for a validation-passing name free of regex
metacharacters — where the anchored case-insensitive regex the route
builds is the literal name — creation fails with Conflict and leaves the
store untouched exactly when a case-insensitive duplicate is stored, and
otherwise succeeds adding exactly the one new record; names containing
metacharacters are instead matched as regex patterns (see the
counterexample). -/
theorem createCategory_ci_unique (s : Store) (rawName : String) (newId now : Nat)
    (hname : (jsTrim rawName).isEmpty = false ∧ (jsTrim rawName).length ≤ 100)
    (hplain : ∀ c ∈ (jsTrim rawName).data, isMeta c = false) :
    ((∃ c ∈ s.categories, ciEq c.name (jsTrim rawName) = true) →
      createCategory s rawName newId now = (.conflict, s)) ∧
    ((∀ c ∈ s.categories, ciEq c.name (jsTrim rawName) = false) →
      (createCategory s rawName newId now).1
        = .created { id := newId, name := jsTrim rawName, createdAt := now } ∧
      (createCategory s rawName newId now).2.categories
        = s.categories ++ [{ id := newId, name := jsTrim rawName, createdAt := now }] ∧
      (createCategory s rawName newId now).2.subCategories = s.subCategories ∧
      (createCategory s rawName newId now).2.products = s.products) := by
  have hif : ¬((jsTrim rawName).isEmpty = true ∨ 100 < (jsTrim rawName).length) := by
    rcases hname with ⟨h1, h2⟩
    rintro (h | h)
    · rw [h1] at h
      exact Bool.false_ne_true h
    · omega
  have hcomp : compileNameRegex (jsTrim rawName) = some (litRe (jsTrim rawName).data) :=
    compileNameRegex_lits _ hplain
  have hpred : (fun c : Category => regexMatches (litRe (jsTrim rawName).data) c.name)
      = (fun c => ciEq c.name (jsTrim rawName)) := by
    funext c
    rw [regexMatches_litRe]
  constructor
  · rintro ⟨c, hc, hci⟩
    cases hfind : s.categories.find? (fun c => ciEq c.name (jsTrim rawName)) with
    | none =>
      rw [List.find?_eq_none] at hfind
      exact absurd hci (by simpa using hfind c hc)
    | some c0 => simp [createCategory, hif, hcomp, hpred, hfind]
  · intro h
    have hfind : s.categories.find? (fun c => ciEq c.name (jsTrim rawName)) = none := by
      rw [List.find?_eq_none]
      intro c hc
      simp [h c hc]
    simp [createCategory, hif, hcomp, hpred, hfind]

/-- Witness for the amended C6 at the concrete store: "teak" is
metacharacter-free and a case-insensitive duplicate of the stored "Teak",
so the create is rejected with Conflict and the store is unchanged. -/
theorem createCategory_ci_unique_witness :
    ((jsTrim "teak").isEmpty = false ∧ (jsTrim "teak").length ≤ 100) ∧
    createCategory sampleStore "teak" 99 5 = (.conflict, sampleStore) :=
  ⟨⟨by decide, by decide⟩,
   (createCategory_ci_unique sampleStore "teak" 99 5 ⟨by decide, by decide⟩
       (by decide)).1
     ⟨{ id := 1, name := "Teak", createdAt := 0 }, List.Mem.head _, by decide⟩⟩

/-- C7: membership in the (unpaginated) match set of a product query is
exactly: stored, passing the subcategory scope and the name search, at
least any supplied `qtyMin` (inclusive), and at most any supplied
`qtyMax` (inclusive); an absent bound imposes no constraint, and the two
bounds are independent, so neither, either, or both may be supplied. -/
theorem qty_filter_inclusive (s : Store) (q : ProductQuery) (p : Product) :
    p ∈ sortedMatch s q ↔
      (p ∈ s.products ∧ matchesSubCat q.subCat p = true ∧ matchesSearch q.search p = true ∧
       (∀ m, q.qtyMin = some m → m ≤ p.qty) ∧ (∀ n, q.qtyMax = some n → p.qty ≤ n)) := by
  have hmem : p ∈ sortedMatch s q ↔ p ∈ s.products ∧ matchesQuery q p = true := by
    simp [sortedMatch, List.mem_mergeSort, List.mem_filter]
  rw [hmem]
  unfold matchesQuery
  constructor
  · rintro ⟨hp, hq⟩
    rw [Bool.and_eq_true, Bool.and_eq_true, Bool.and_eq_true] at hq
    obtain ⟨⟨⟨hsc, hse⟩, hmin⟩, hmax⟩ := hq
    refine ⟨hp, hsc, hse, ?_, ?_⟩
    · intro m hm
      rw [hm] at hmin
      simp only [qtyMinOk] at hmin
      exact of_decide_eq_true hmin
    · intro n hn
      rw [hn] at hmax
      simp only [qtyMaxOk] at hmax
      exact of_decide_eq_true hmax
  · rintro ⟨hp, hsc, hse, hmin, hmax⟩
    refine ⟨hp, ?_⟩
    rw [Bool.and_eq_true, Bool.and_eq_true, Bool.and_eq_true]
    refine ⟨⟨⟨hsc, hse⟩, ?_⟩, ?_⟩
    · cases hq : q.qtyMin with
      | none => simp [qtyMinOk]
      | some m =>
        simp only [qtyMinOk]
        exact decide_eq_true (hmin m hq)
    · cases hq : q.qtyMax with
      | none => simp [qtyMaxOk]
      | some n =>
        simp only [qtyMaxOk]
        exact decide_eq_true (hmax n hq)

/-- Witness for C7 at the concrete store: with both bounds set to 50, the
qty-50 product is kept — both bounds are inclusive. -/
theorem qty_filter_inclusive_witness :
    sampleProduct ∈ sortedMatch sampleStore
      { subCat := .any, search := none, qtyMin := some 50, qtyMax := some 50 } ∧
    sampleProduct.qty = 50 := by
  constructor
  · exact (qty_filter_inclusive sampleStore
      { subCat := .any, search := none, qtyMin := some 50, qtyMax := some 50 }
      sampleProduct).mpr
      ⟨List.Mem.head _, rfl, rfl,
       fun m hm => by cases hm; decide,
       fun n hn => by cases hn; decide⟩
  · rfl

/-- C8: the product list response is the `(page-1)*limit` offset window of
length `limit` over the sorted match set — so it preserves the order of
an unpaginated fetch — and it reports the total matching count and
`pages = ⌈total / limit⌉` (the least number of pages covering all
matches). -/
theorem listProducts_pagination (s : Store) (ps : ProductListParams)
    (_hpage : 1 ≤ ps.page) (hlimit : 0 < ps.limit) :
    (listProducts s ps).1.products
      = (((sortedMatch s (buildProductQuery s ps)).drop ((ps.page - 1) * ps.limit)).take
          ps.limit).map serializeProduct ∧
    (listProducts s ps).1.total = (sortedMatch s (buildProductQuery s ps)).length ∧
    (listProducts s ps).1.page = ps.page ∧
    (listProducts s ps).1.limit = ps.limit ∧
    (listProducts s ps).1.pages = (listProducts s ps).1.total ⌈/⌉ ps.limit ∧
    (listProducts s ps).1.total ≤ (listProducts s ps).1.pages * ps.limit ∧
    (∀ k : Nat, (listProducts s ps).1.total ≤ k * ps.limit →
      (listProducts s ps).1.pages ≤ k) ∧
    (listProducts s ps).2 = s := by
  refine ⟨rfl, rfl, rfl, rfl, rfl, ?_, ?_, rfl⟩
  · have h : (listProducts s ps).1.total
        ≤ ps.limit • ((listProducts s ps).1.total ⌈/⌉ ps.limit) :=
      le_smul_ceilDiv hlimit
    rw [smul_eq_mul] at h
    calc (listProducts s ps).1.total
        ≤ ps.limit * ((listProducts s ps).1.total ⌈/⌉ ps.limit) := h
      _ = ((listProducts s ps).1.total ⌈/⌉ ps.limit) * ps.limit := Nat.mul_comm _ _
      _ = (listProducts s ps).1.pages * ps.limit := rfl
  · intro k hk
    have hk' : (listProducts s ps).1.total ≤ ps.limit * k := by
      rw [Nat.mul_comm]
      exact hk
    exact (ceilDiv_le_iff_le_mul hlimit).mpr hk'

/-- A store of 45 Products, already in descending `updatedAt` order, under
an all-matching (empty) filter. -/
def store45 : Store :=
  { categories := [], subCategories := []
    products := (List.range 45).map (fun i =>
      { id := i, name := "Veneer", subCategoryId := 0, qty := 1, price := 2, billing := 3,
        image := "", sampleLocation := "", ghodaLocation := "",
        createdAt := 0, updatedAt := 100 - i }) }

/-- The concrete pagination request of the claim: page 2, limit 20. -/
def page2Params : ProductListParams := { page := 2, limit := 20 }

/-- Witness for C8: page 2 with limit 20 over 45 matching Products returns
exactly items 21-40 of the unpaginated order, with `total = 45` and
`pages = 3`. -/
theorem listProducts_pagination_witness :
    1 ≤ page2Params.page ∧ 0 < page2Params.limit ∧
    (listProducts store45 page2Params).1.products
      = ((store45.products.drop 20).take 20).map serializeProduct ∧
    (listProducts store45 page2Params).1.total = 45 ∧
    (listProducts store45 page2Params).1.pages = 3 := by
  have hfilter : store45.products.filter
      (fun p => matchesQuery (buildProductQuery store45 page2Params) p)
        = store45.products :=
    List.filter_eq_self.mpr (fun a _ => rfl)
  have hsorted : store45.products.Pairwise
      (fun a b => (decide (b.updatedAt ≤ a.updatedAt)) = true) := by decide
  have hmerge : sortedMatch store45 (buildProductQuery store45 page2Params)
      = store45.products := by
    unfold sortedMatch
    rw [hfilter]
    exact List.mergeSort_of_sorted hsorted
  have hthm := listProducts_pagination store45 page2Params (by decide) (by decide)
  refine ⟨by decide, by decide, ?_, ?_, ?_⟩
  · rw [hthm.1, hmerge]
    simp [page2Params]
  · rw [hthm.2.1, hmerge]
    simp [store45]
  · have hp := hthm.2.2.2.2.1
    rw [hp, hthm.2.1, hmerge]
    have h45 : (store45.products.length) = 45 := by simp [store45]
    rw [h45]
    rfl

/-- C9: a successful product update — whatever subset of fields it
touches — stamps `updatedAt` with the time of the write, both in the
store and in the returned document; a create stamps it too; and the
product reads return the store unchanged. -/
theorem updatedAt_write_policy (s : Store) (pid : Nat) (u : ProductUpdateReq)
    (now : Nat) (req : ProductCreateReq) (newId : Nat) (ps : ProductListParams) :
    (updateReqValid u = true →
      ∀ p ∈ s.products, p.id = pid →
        ∀ q ∈ (updateProduct s pid u now).2.products, q.id = pid → q.updatedAt = now) ∧
    (∀ v, (updateProduct s pid u now).1 = .updated v → v.updatedAt = now) ∧
    (∀ pv, (createProduct s req newId now).1 = .created pv → pv.updatedAt = now) ∧
    (getProduct s pid).2 = s ∧
    (listProducts s ps).2 = s := by
  refine ⟨?_, ?_, ?_, ?_, rfl⟩
  · intro hval p hp hpid q hq hqid
    cases hfind : s.products.find? (fun r => r.id == pid) with
    | none =>
      rw [List.find?_eq_none] at hfind
      have h2 := hfind p hp
      simp [hpid] at h2
    | some p0 =>
      have hq' : q ∈ s.products.map
          (fun r => if r.id == pid then applyProductUpdate r u now else r) := by
        simpa [updateProduct, hval, hfind] using hq
      rcases List.mem_map.1 hq' with ⟨r, _, rfl⟩
      cases hbid : (r.id == pid) with
      | true => simp [hbid, applyProductUpdate]
      | false =>
        rw [hbid] at hqid
        simp at hqid
        simp [hqid] at hbid
  · intro v hv
    cases hval : updateReqValid u with
    | false => simp [updateProduct, hval] at hv
    | true =>
      cases hfind : s.products.find? (fun r => r.id == pid) with
      | none => simp [updateProduct, hval, hfind] at hv
      | some p0 =>
        simp [updateProduct, hval, hfind] at hv
        rw [← hv]
        rfl
  · intro pv hv
    simp only [createProduct] at hv
    split at hv
    · simp at hv
    · split at hv
      · simp at hv
      · simp at hv
        rw [← hv]
        rfl
  · cases hfind : s.products.find? (fun r => r.id == pid) with
    | none => simp [getProduct, hfind]
    | some p0 => simp [getProduct, hfind]

/-- Witness for C9 at the concrete store: a partial update touching only
`qty` still stamps `updatedAt` with the write time 50. -/
theorem updatedAt_write_policy_witness :
    updateReqValid { qty := some 7 } = true ∧
    (updateProduct sampleStore 100 { qty := some 7 } 50).1
      = .updated (serializeProduct (applyProductUpdate sampleProduct { qty := some 7 } 50)) ∧
    (serializeProduct (applyProductUpdate sampleProduct { qty := some 7 } 50)).updatedAt
      = 50 :=
  ⟨rfl, rfl,
   (updatedAt_write_policy sampleStore 100 { qty := some 7 } 50
     { name := "X", subCategoryId := 10, qty := 0, price := 0, billing := 0,
       image := none, sampleLocation := none, ghodaLocation := none } 0 {}).2.1 _ rfl⟩

/-- C10: when both `subCategoryId` and `categoryId` are supplied to the
product list, `categoryId` is ignored: the response (and resulting store)
are identical to the request carrying only the `subCategoryId` filter,
because the Category-to-SubCategory resolution runs only under
`categoryId && !subCategoryId`. -/
theorem categoryId_ignored_with_subCategoryId (s : Store) (ps : ProductListParams)
    (scid cid : Nat) :
    listProducts s { ps with subCategoryId := some scid, categoryId := some cid }
      = listProducts s { ps with subCategoryId := some scid, categoryId := none } := rfl
